import Mathlib

/-!
Verification of the depth-map demo repository.

The repository's algorithmic core consists of
(1) canvas pixel post-processing over `ImageData` RGBA buffers
    (`normalizeBrightness` in v4/app.js:78-97 and v5/app.js:176-195,
    the alpha-mask loop of `createDepthTexture` in part_001:131-163 and
    `renderDepthMapToTexture` in v5/app.js:98-135,
    `invertCanvasImage` in part_000:1108-1119, and
    `createOuterRingPath` in v8/main.js:221-232), and
(2) the stale-update guard of `ThreeDScene.updateMesh`
    (part_001:223-271, identical in part_000:683-731).

Pixel data lives in a `Uint8ClampedArray`: every channel is an integer in
[0,255], and a store into the array clamps to [0,255] and rounds a
fractional value to the nearest integer, ties to even.  JavaScript's
intermediate double-precision arithmetic is modelled as exact rational
arithmetic followed by that clamped store.
-/

namespace DepthMap

/-- One RGBA pixel of a canvas `ImageData` buffer: the four consecutive
bytes `data[i] .. data[i+3]` of the flat `Uint8ClampedArray`. -/
structure Pixel where
  r : Nat
  g : Nat
  b : Nat
  a : Nat
deriving DecidableEq, Repr

/-- A canvas `ImageData` buffer: the declared width/height plus the RGBA
byte array, grouped into 4-byte pixels. -/
structure ImageData where
  width : Nat
  height : Nat
  data : List Pixel
deriving DecidableEq, Repr

/-- Well-formedness guaranteed by `Uint8ClampedArray`: every channel is a
byte in [0,255]. -/
def WFData (l : List Pixel) : Prop :=
  ∀ p ∈ l, p.r ≤ 255 ∧ p.g ≤ 255 ∧ p.b ≤ 255 ∧ p.a ≤ 255

instance (l : List Pixel) : Decidable (WFData l) :=
  List.decidableBAll _ l

/-- A grayscale buffer: every pixel has equal R, G, B channels (the form of
a depth map drawn from the depth model's single-channel output). -/
def GrayData (l : List Pixel) : Prop :=
  ∀ p ∈ l, p.r = p.g ∧ p.g = p.b

instance (l : List Pixel) : Decidable (GrayData l) :=
  List.decidableBAll _ l

/-- A constant buffer: all pixels are equal. -/
def ConstData (l : List Pixel) : Prop :=
  ∀ p ∈ l, ∀ q ∈ l, p = q

instance (l : List Pixel) : Decidable (ConstData l) :=
  List.decidableBAll _ l

/-- Round the non-negative rational `num / den` to the nearest integer,
ties to even: the rounding a `Uint8ClampedArray` store applies. -/
def roundHalfEven (num den : Nat) : Nat :=
  let q := num / den
  let rem2 := 2 * (num % den)
  if rem2 < den then q
  else if den < rem2 then q + 1
  else if q % 2 = 0 then q else q + 1

/-- A `Uint8ClampedArray` store of the non-negative value `num / den`:
round to nearest (ties to even) and clamp to the byte range. -/
def clampedRound (num den : Nat) : Nat :=
  Nat.min (roundHalfEven num den) 255

/-- The min scan of `normalizeBrightness` (v4/app.js:84-88): starting from
`min = 255`, `if (depthValue < min) min = depthValue` over every pixel's
red byte `data[i]`. -/
def redMinLoop : List Pixel → Nat → Nat
  | [], m => m
  | p :: rest, m => redMinLoop rest (if p.r < m then p.r else m)

/-- The max scan of `normalizeBrightness` (v4/app.js:84-88): starting from
`max = 0`, `if (depthValue > max) max = depthValue` over every pixel's red
byte `data[i]`. -/
def redMaxLoop : List Pixel → Nat → Nat
  | [], m => m
  | p :: rest, m => redMaxLoop rest (if p.r > m then p.r else m)

/-- The per-pixel write of `normalizeBrightness` (v4/app.js:91-94):
`data[i] = data[i+1] = data[i+2] = ((data[i] - min) / range) * 255`, each
of the three stores clamping/rounding the same value, alpha untouched.
`data[i] - min` is non-negative because `min` is a lower bound of every
red byte, so the `Nat` subtraction agrees with JavaScript. -/
def normalizePixel (mn range : Nat) (p : Pixel) : Pixel :=
  let v := clampedRound ((p.r - mn) * 255) range
  ⟨v, v, v, p.a⟩

/-- The data transform of `normalizeBrightness` (v4/app.js:78-97, repeated
verbatim in v5/app.js:176-195): scan min/max of the red channel, set
`range = max - min || 1` (for a nonempty array `min ≤ max`, so the `Nat`
subtraction agrees with JavaScript; for an empty array the per-pixel loop
never runs and `range` is never consulted), then rescale every pixel. -/
def normalizeData (d : List Pixel) : List Pixel :=
  let mn := redMinLoop d 255
  let mx := redMaxLoop d 0
  let range := if mx - mn = 0 then 1 else mx - mn
  d.map (normalizePixel mn range)

/-- `normalizeBrightness` (v4/app.js:78-97): `getImageData`, the transform
over the pixel array, `putImageData` back onto the same-size canvas. -/
def normalizeBrightness (img : ImageData) : ImageData :=
  { img with data := normalizeData img.data }

/-- The per-pixel alpha write of the mask loop (part_001:146-149 and
v5/app.js:116-127): `brightness = data[i] + data[i+1] + data[i+2];
data[i+3] = brightness < toneRange * 3 ? 0 : 255`. -/
def maskPixel (toneRange : Nat) (p : Pixel) : Pixel :=
  let brightness := p.r + p.g + p.b
  { p with a := if brightness < toneRange * 3 then 0 else 255 }

/-- The pixel-data transform of `createDepthTexture` (part_001:131-163;
the identical loop appears in `renderDepthMapToTexture`,
v5/app.js:98-135): threshold the RGB sum of each pixel into its alpha. -/
def createDepthTextureData (toneRange : Nat) (d : List Pixel) : List Pixel :=
  d.map (maskPixel toneRange)

/-- The per-pixel write of `invertCanvasImage` (part_000:1113-1117):
`data[i] = 255 - data[i]` for R, G, B; alpha untouched. -/
def invertPixel (p : Pixel) : Pixel :=
  ⟨255 - p.r, 255 - p.g, 255 - p.b, p.a⟩

/-- The pixel-data transform of `invertCanvasImage` (part_000:1108-1119). -/
def invertCanvasImageData (d : List Pixel) : List Pixel :=
  d.map invertPixel

/-- A 2D facial-landmark keypoint (v8/main.js `keypoints` entries). -/
structure Point where
  x : Int
  y : Int
deriving DecidableEq, Repr

/-- `OUTER_RING_INDICES` (v8/main.js:15-19): the fixed landmark indices of
the facial outline polygon. -/
def OUTER_RING_INDICES : List Nat :=
  [10, 338, 297, 332, 284, 251, 389, 356, 454, 323, 361, 288, 397, 365,
   379, 378, 400, 377, 152, 148, 176, 149, 150, 136, 172, 58, 132, 93,
   234, 127, 162, 21, 54, 103, 67, 109]

/-- `createOuterRingPath` (v8/main.js:221-232): `moveTo` the keypoint at
the first outer-ring index, `lineTo` the keypoint at each remaining index,
`closePath`.  The path is returned as its vertex list.  JavaScript throws
a generic `TypeError` when `keypoints[idx]` is `undefined`; a failed
lookup is modelled as `none`. -/
def createOuterRingPath (keypoints : List Point) : Option (List Point) := do
  let startIdx := OUTER_RING_INDICES.headI
  let startPoint ← keypoints.get? startIdx
  let tail ← OUTER_RING_INDICES.tail.mapM (fun idx => keypoints.get? idx)
  pure (startPoint :: tail)

/-- The spec's error taxonomy for the Depth-Buffer Processor (spec §4.1
failure modes, §7).  No value of this type is produced anywhere in the
source. -/
inductive ProcError where
  | DimensionMismatch
  | DegeneratePolygon
deriving DecidableEq, Repr

/-- Modelled from the spec: the failure-mode contract of §4.1 ("any
operation given a buffer of mismatched dimensions from its declared
width/height fails with a `DimensionMismatch` error"), stated as a checked
wrapper around the processor's normalize, for comparison against the
source's `normalizeBrightness`, which performs no such check. -/
def specNormalizeChecked (img : ImageData) : Except ProcError ImageData :=
  if img.data.length = img.width * img.height then
    Except.ok (normalizeBrightness img)
  else
    Except.error ProcError.DimensionMismatch

/-- Modelled from the spec: the failure-mode contract of §4.1 ("a polygon
with fewer than 3 vertices fails with `DegeneratePolygon`"), for
comparison against the source's `createOuterRingPath`, which performs no
vertex-count check. -/
def specClipPolygonChecked (polygon : List Point) : Except ProcError (List Point) :=
  if polygon.length < 3 then
    Except.error ProcError.DegeneratePolygon
  else
    Except.ok polygon

/-- The scene's single logical mesh: the displaced, textured surface built
by `updateMesh` from a depth texture and a photo texture
(part_001:259-270).  Geometry/material identity is abstracted to the pair
of inputs the mesh was built from. -/
structure Mesh where
  depthTexture : Nat
  photo : Nat
deriving DecidableEq, Repr

/-- An in-flight `updateMesh` call: its captured `updateId` token and its
inputs, suspended at `await textureLoader.loadAsync(image.src)`
(part_001:249). -/
structure Pending where
  updateId : Nat
  depthTexture : Nat
  photo : Nat
deriving DecidableEq, Repr

/-- Resources allocated by an `updateMesh` call before its token check:
the `PlaneGeometry` built at part_001:239-244 and the photo texture loaded
at part_001:249, tagged by the call's token. -/
inductive Res where
  | geometry (updateId : Nat)
  | texture (updateId : Nat)
deriving DecidableEq, Repr

/-- The observable state of `ThreeDScene` (part_001:168-283):
`currentUpdateId` and `mesh` are the class fields of those names
(`this.mesh` is in the scene graph exactly when non-null); `pending`
records the calls suspended at the texture load; `disposeLog` records
every previous mesh whose geometry/material were disposed when it was
removed (part_001:232-237); `released` records the geometry/texture pairs
disposed on the stale path (part_001:252-257). -/
structure ThreeDScene where
  currentUpdateId : Nat
  mesh : Option Mesh
  pending : List Pending
  disposeLog : List Mesh
  released : List Res
deriving DecidableEq, Repr

/-- The `ThreeDScene` constructor (part_001:169-178): `this.mesh = null`,
`this.currentUpdateId = 0`. -/
def ThreeDScene.init : ThreeDScene :=
  { currentUpdateId := 0
    mesh := none
    pending := []
    disposeLog := []
    released := [] }

/-- The synchronous prefix of `updateMesh` (part_001:223-249), up to and
including issuing the texture load: capture
`updateId = ++this.currentUpdateId`; if a mesh exists, remove it from the
scene and dispose its geometry and material, setting `this.mesh = null`
(part_001:232-237); build the new geometry; start the texture load, which
suspends the call. -/
def updateMeshBegin (s : ThreeDScene) (depthTexture photo : Nat) : ThreeDScene :=
  let updateId := s.currentUpdateId + 1
  { currentUpdateId := updateId
    mesh := none
    pending := s.pending ++ [⟨updateId, depthTexture, photo⟩]
    disposeLog :=
      match s.mesh with
      | some m => s.disposeLog ++ [m]
      | none => s.disposeLog
    released := s.released }

/-- The continuation of `updateMesh` after its texture load resolves
(part_001:251-271): if `updateId !== this.currentUpdateId` the update is
superseded, so the call disposes the geometry and the loaded texture and
returns without touching the scene; otherwise it builds the material and
mesh from its inputs and adds the mesh to the scene. -/
def updateMeshComplete (s : ThreeDScene) (req : Pending) : ThreeDScene :=
  let remaining := s.pending.filter (fun q => q.updateId != req.updateId)
  if req.updateId ≠ s.currentUpdateId then
    { s with
      pending := remaining
      released := s.released ++ [Res.geometry req.updateId, Res.texture req.updateId] }
  else
    { s with
      pending := remaining
      mesh := some ⟨req.depthTexture, req.photo⟩ }

/-- A scheduler event under the single-threaded cooperative model (spec
§5): `issue` runs the synchronous prefix of an `updateMesh` call, and
`resolve` runs the continuation of a suspended call whose texture load
completed. -/
inductive Ev where
  | issue (depthTexture photo : Nat)
  | resolve (req : Pending)
deriving DecidableEq, Repr

/-- One scheduler step. -/
def step : ThreeDScene → Ev → ThreeDScene
  | s, Ev.issue t p => updateMeshBegin s t p
  | s, Ev.resolve req => updateMeshComplete s req

/-- Run a whole event schedule from the freshly constructed scene. -/
def run (evs : List Ev) : ThreeDScene :=
  evs.foldl step ThreeDScene.init

/-- Number of `issue` events in a schedule. -/
def issueCount : List Ev → Nat
  | [] => 0
  | Ev.issue _ _ :: rest => issueCount rest + 1
  | Ev.resolve _ :: rest => issueCount rest

/-- The tokens assigned to the `issue` events of a schedule, in order:
each `issue` is assigned `currentUpdateId + 1` of the state it runs in
(part_001:224). -/
def tokensAux : ThreeDScene → List Ev → List Nat
  | _, [] => []
  | s, Ev.issue t p :: rest =>
      (s.currentUpdateId + 1) :: tokensAux (step s (Ev.issue t p)) rest
  | s, Ev.resolve req :: rest => tokensAux (step s (Ev.resolve req)) rest

/-- The tokens assigned along a schedule run from the initial scene. -/
def assignedTokens (evs : List Ev) : List Nat :=
  tokensAux ThreeDScene.init evs

/-! ### Helper lemmas about the min/max scans -/

theorem redMinLoop_le_init (l : List Pixel) (m : Nat) : redMinLoop l m ≤ m := by
  induction l generalizing m with
  | nil => simp [redMinLoop]
  | cons q rest ih =>
    simp only [redMinLoop]
    refine (ih _).trans ?_
    split <;> omega

theorem redMinLoop_le_mem (l : List Pixel) (m : Nat) (p : Pixel) (hp : p ∈ l) :
    redMinLoop l m ≤ p.r := by
  induction l generalizing m with
  | nil => cases hp
  | cons q rest ih =>
    simp only [redMinLoop]
    rcases List.mem_cons.1 hp with h | h
    · subst h
      refine (redMinLoop_le_init _ _).trans ?_
      split <;> omega
    · exact ih _ h

theorem le_redMinLoop (l : List Pixel) (m c : Nat) (hm : c ≤ m)
    (h : ∀ p ∈ l, c ≤ p.r) : c ≤ redMinLoop l m := by
  induction l generalizing m with
  | nil => simpa [redMinLoop] using hm
  | cons q rest ih =>
    simp only [redMinLoop]
    refine ih _ ?_ fun p hp => h p (List.mem_cons_of_mem _ hp)
    have := h q (List.mem_cons_self _ _)
    split <;> omega

theorem redMinLoop_attain (l : List Pixel) (m : Nat) :
    redMinLoop l m = m ∨ ∃ p ∈ l, redMinLoop l m = p.r := by
  induction l generalizing m with
  | nil => exact Or.inl rfl
  | cons q rest ih =>
    simp only [redMinLoop]
    rcases ih (if q.r < m then q.r else m) with h | ⟨p, hp, hpr⟩
    · by_cases hq : q.r < m
      · exact Or.inr ⟨q, List.mem_cons_self _ _, by simpa [hq] using h⟩
      · exact Or.inl (by simpa [hq] using h)
    · exact Or.inr ⟨p, List.mem_cons_of_mem _ hp, hpr⟩

theorem le_redMaxLoop_init (l : List Pixel) (m : Nat) : m ≤ redMaxLoop l m := by
  induction l generalizing m with
  | nil => simp [redMaxLoop]
  | cons q rest ih =>
    simp only [redMaxLoop]
    refine le_trans ?_ (ih _)
    split <;> omega

theorem le_redMaxLoop_mem (l : List Pixel) (m : Nat) (p : Pixel) (hp : p ∈ l) :
    p.r ≤ redMaxLoop l m := by
  induction l generalizing m with
  | nil => cases hp
  | cons q rest ih =>
    simp only [redMaxLoop]
    rcases List.mem_cons.1 hp with h | h
    · subst h
      refine le_trans ?_ (le_redMaxLoop_init _ _)
      split <;> omega
    · exact ih _ h

theorem redMaxLoop_le (l : List Pixel) (m c : Nat) (hm : m ≤ c)
    (h : ∀ p ∈ l, p.r ≤ c) : redMaxLoop l m ≤ c := by
  induction l generalizing m with
  | nil => simpa [redMaxLoop] using hm
  | cons q rest ih =>
    simp only [redMaxLoop]
    refine ih _ ?_ fun p hp => h p (List.mem_cons_of_mem _ hp)
    have := h q (List.mem_cons_self _ _)
    split <;> omega

theorem redMaxLoop_attain (l : List Pixel) (m : Nat) :
    redMaxLoop l m = m ∨ ∃ p ∈ l, redMaxLoop l m = p.r := by
  induction l generalizing m with
  | nil => exact Or.inl rfl
  | cons q rest ih =>
    simp only [redMaxLoop]
    rcases ih (if q.r > m then q.r else m) with h | ⟨p, hp, hpr⟩
    · by_cases hq : q.r > m
      · exact Or.inr ⟨q, List.mem_cons_self _ _, by simpa [hq] using h⟩
      · exact Or.inl (by simpa [hq] using h)
    · exact Or.inr ⟨p, List.mem_cons_of_mem _ hp, hpr⟩

/-! ### Helper lemmas about the clamped ties-to-even store -/

theorem roundHalfEven_zero (den : Nat) : roundHalfEven 0 den = 0 := by
  unfold roundHalfEven
  simp

theorem roundHalfEven_mul_self (a den : Nat) (hden : 0 < den) :
    roundHalfEven (a * den) den = a := by
  unfold roundHalfEven
  simp [Nat.mul_div_cancel a hden, Nat.mul_mod_left, hden]

theorem clampedRound_le (num den : Nat) : clampedRound num den ≤ 255 :=
  Nat.min_le_right _ _

theorem clampedRound_zero (den : Nat) : clampedRound 0 den = 0 := by
  simp [clampedRound, roundHalfEven_zero]

theorem clampedRound_mul_self (a den : Nat) (hden : 0 < den) (ha : a ≤ 255) :
    clampedRound (a * den) den = a := by
  simp [clampedRound, roundHalfEven_mul_self a den hden, Nat.min_eq_left ha]

/-! ### Generic list helpers -/

theorem map_eq_self_of {f : Pixel → Pixel} (l : List Pixel)
    (h : ∀ q ∈ l, f q = q) : l.map f = l := by
  induction l with
  | nil => rfl
  | cons p rest ih =>
    simp only [List.map_cons, List.cons.injEq]
    exact ⟨h p (List.mem_cons_self _ _), ih fun q hq => h q (List.mem_cons_of_mem _ hq)⟩

theorem if_zero_then_one_eq_max (a : Nat) : (if a = 0 then 1 else a) = Nat.max a 1 := by
  rcases a with _ | n
  · simp
  · simp [Nat.max_eq_left (by omega : 1 ≤ n + 1)]

theorem normalizeData_eq (d : List Pixel) :
    normalizeData d =
      d.map (normalizePixel (redMinLoop d 255)
        (if redMaxLoop d 0 - redMinLoop d 255 = 0 then 1
         else redMaxLoop d 0 - redMinLoop d 255)) := rfl

theorem normalizePixel_r (mn rg : Nat) (q : Pixel) :
    (normalizePixel mn rg q).r = clampedRound ((q.r - mn) * 255) rg := rfl

theorem normalizePixel_eta (mn rg : Nat) (q : Pixel) :
    normalizePixel mn rg q =
      ⟨clampedRound ((q.r - mn) * 255) rg, clampedRound ((q.r - mn) * 255) rg,
       clampedRound ((q.r - mn) * 255) rg, q.a⟩ := rfl

/-- After one pass of the normalize transform over a nonempty well-formed
buffer, the red channel attains 0 and (when the input is not constant)
255, every channel triple is equal, and alpha is carried over; a second
pass is therefore the identity. -/
theorem normalizeData_idem (d : List Pixel) (hwf : WFData d) :
    normalizeData (normalizeData d) = normalizeData d := by
  cases d with
  | nil => rfl
  | cons p0 rest =>
    set l : List Pixel := p0 :: rest with hl
    set mn := redMinLoop l 255 with hmn
    set mx := redMaxLoop l 0 with hmx
    have hp0 : p0 ∈ l := List.mem_cons_self _ _
    have hmn_le : mn ≤ p0.r := redMinLoop_le_mem l 255 p0 hp0
    have hle_mx : p0.r ≤ mx := le_redMaxLoop_mem l 0 p0 hp0
    have hmnmx : mn ≤ mx := hmn_le.trans hle_mx
    by_cases hc : mx - mn = 0
    · -- constant-range case: every output channel is 0
      have hall : ∀ q ∈ l, q.r = mn := by
        intro q hq
        have h1 : mn ≤ q.r := redMinLoop_le_mem l 255 q hq
        have h2 : q.r ≤ mx := le_redMaxLoop_mem l 0 q hq
        omega
      have hshape : ∀ q' ∈ normalizeData l, q' = ⟨0, 0, 0, q'.a⟩ := by
        intro q' hq'
        rw [normalizeData_eq, ← hmn, ← hmx, if_pos hc] at hq'
        rcases List.mem_map.1 hq' with ⟨q, hq, hqeq⟩
        subst hqeq
        simp [normalizePixel_eta, hall q hq, clampedRound_zero]
      have hzero_mem : ∀ q' ∈ normalizeData l, q'.r = 0 := by
        intro q' hq'
        have := hshape q' hq'
        calc q'.r = (⟨0, 0, 0, q'.a⟩ : Pixel).r := by rw [← this]
        _ = 0 := rfl
      have hmn' : redMinLoop (normalizeData l) 255 = 0 := by
        have hne : normalizeData l ≠ [] := by
          rw [normalizeData_eq]
          simp [hl]
        rcases List.exists_mem_of_ne_nil _ hne with ⟨q', hq'⟩
        have h1 : redMinLoop (normalizeData l) 255 ≤ q'.r :=
          redMinLoop_le_mem _ 255 q' hq'
        have h2 := hzero_mem q' hq'
        omega
      have hmx' : redMaxLoop (normalizeData l) 0 = 0 := by
        have h1 : redMaxLoop (normalizeData l) 0 ≤ 0 :=
          redMaxLoop_le _ 0 0 le_rfl fun q' hq' => (hzero_mem q' hq').le
        omega
      rw [normalizeData_eq (normalizeData l), hmn', hmx']
      simp only [Nat.sub_zero, if_pos rfl]
      apply map_eq_self_of
      intro q' hq'
      have hq'shape := hshape q' hq'
      rw [normalizePixel_eta]
      rw [hq'shape]
      simp [clampedRound_zero]
    · -- expanding case: the output range is exactly [0, 255]
      have hlt : mn < mx := by omega
      have hrg : (if mx - mn = 0 then 1 else mx - mn) = mx - mn := if_neg hc
      have hmx255 : mx ≤ 255 :=
        redMaxLoop_le l 0 255 (by omega) fun q hq => (hwf q hq).1
      -- the minimum is attained by some pixel
      have hminat : ∃ p ∈ l, mn = p.r := by
        rcases redMinLoop_attain l 255 with h | h
        · omega
        · exact h
      have hmaxat : ∃ p ∈ l, mx = p.r := by
        rcases redMaxLoop_attain l 0 with h | h
        · omega
        · exact h
      rcases hminat with ⟨pmin, hpminmem, hpminr⟩
      rcases hmaxat with ⟨pmax, hpmaxmem, hpmaxr⟩
      have hshape : ∀ q' ∈ normalizeData l,
          q' = ⟨q'.r, q'.r, q'.r, q'.a⟩ ∧ q'.r ≤ 255 := by
        intro q' hq'
        rw [normalizeData_eq, ← hmn, ← hmx, hrg] at hq'
        rcases List.mem_map.1 hq' with ⟨q, _, hqeq⟩
        subst hqeq
        exact ⟨by rw [normalizePixel_eta], clampedRound_le _ _⟩
      have hzero_in : (0 : Nat) ∈ (normalizeData l).map Pixel.r := by
        rw [normalizeData_eq, ← hmn, ← hmx, hrg]
        refine List.mem_map.2 ⟨normalizePixel mn (mx - mn) pmin,
          List.mem_map_of_mem _ hpminmem, ?_⟩
        rw [normalizePixel_r, ← hpminr]
        simp [clampedRound_zero]
      have h255_in : (255 : Nat) ∈ (normalizeData l).map Pixel.r := by
        rw [normalizeData_eq, ← hmn, ← hmx, hrg]
        refine List.mem_map.2 ⟨normalizePixel mn (mx - mn) pmax,
          List.mem_map_of_mem _ hpmaxmem, ?_⟩
        rw [normalizePixel_r, ← hpmaxr]
        rw [Nat.mul_comm]
        exact clampedRound_mul_self 255 (mx - mn) (by omega) le_rfl
      have hmn' : redMinLoop (normalizeData l) 255 = 0 := by
        rcases List.mem_map.1 hzero_in with ⟨q', hq', hq'r⟩
        have h1 : redMinLoop (normalizeData l) 255 ≤ q'.r :=
          redMinLoop_le_mem _ 255 q' hq'
        omega
      have hmx' : redMaxLoop (normalizeData l) 0 = 255 := by
        rcases List.mem_map.1 h255_in with ⟨q', hq', hq'r⟩
        have h1 : q'.r ≤ redMaxLoop (normalizeData l) 0 :=
          le_redMaxLoop_mem _ 0 q' hq'
        have h2 : redMaxLoop (normalizeData l) 0 ≤ 255 :=
          redMaxLoop_le _ 0 255 (by omega) fun q' hq' => (hshape q' hq').2
        omega
      rw [normalizeData_eq (normalizeData l), hmn', hmx']
      simp only [Nat.sub_zero]
      rw [if_neg (by omega : (255 : Nat) ≠ 0)]
      apply map_eq_self_of
      intro q' hq'
      obtain ⟨hq'eta, hq'le⟩ := hshape q' hq'
      rw [normalizePixel_eta]
      rw [Nat.sub_zero, clampedRound_mul_self q'.r 255 (by omega) hq'le]
      exact hq'eta.symm

/-! ### Helper lemmas about the mesh-update coordinator -/

theorem updateMeshComplete_currentUpdateId (s : ThreeDScene) (req : Pending) :
    (updateMeshComplete s req).currentUpdateId = s.currentUpdateId := by
  unfold updateMeshComplete
  split <;> rfl

theorem updateMeshBegin_disposeLog (s : ThreeDScene) (t p : Nat) :
    (updateMeshBegin s t p).disposeLog = s.disposeLog ++ s.mesh.toList := by
  unfold updateMeshBegin
  cases s.mesh <;> simp

theorem updateMeshBegin_mesh (s : ThreeDScene) (t p : Nat) :
    (updateMeshBegin s t p).mesh = none := rfl

theorem updateMeshBegin_currentUpdateId (s : ThreeDScene) (t p : Nat) :
    (updateMeshBegin s t p).currentUpdateId = s.currentUpdateId + 1 := rfl

theorem updateMeshComplete_fresh_mesh (s : ThreeDScene) (req : Pending)
    (h : req.updateId = s.currentUpdateId) :
    (updateMeshComplete s req).mesh = some ⟨req.depthTexture, req.photo⟩ := by
  simp [updateMeshComplete, h]

theorem updateMeshComplete_stale_mesh (s : ThreeDScene) (req : Pending)
    (h : req.updateId ≠ s.currentUpdateId) :
    (updateMeshComplete s req).mesh = s.mesh := by
  simp [updateMeshComplete, h]

theorem updateMeshComplete_disposeLog (s : ThreeDScene) (req : Pending) :
    (updateMeshComplete s req).disposeLog = s.disposeLog := by
  unfold updateMeshComplete
  split <;> rfl

theorem updateMeshComplete_released_stale (s : ThreeDScene) (req : Pending)
    (h : req.updateId ≠ s.currentUpdateId) :
    (updateMeshComplete s req).released =
      s.released ++ [Res.geometry req.updateId, Res.texture req.updateId] := by
  simp [updateMeshComplete, h]

theorem tokensAux_spec (evs : List Ev) (s : ThreeDScene) :
    tokensAux s evs = List.range' (s.currentUpdateId + 1) (issueCount evs) ∧
    (evs.foldl step s).currentUpdateId = s.currentUpdateId + issueCount evs := by
  induction evs generalizing s with
  | nil => simp [tokensAux, issueCount]
  | cons e rest ih =>
    cases e with
    | issue t p =>
      have hstep : (step s (Ev.issue t p)).currentUpdateId = s.currentUpdateId + 1 := rfl
      obtain ⟨h1, h2⟩ := ih (step s (Ev.issue t p))
      constructor
      · rw [show tokensAux s (Ev.issue t p :: rest) =
              (s.currentUpdateId + 1) :: tokensAux (step s (Ev.issue t p)) rest from rfl,
            h1, hstep,
            show issueCount (Ev.issue t p :: rest) = issueCount rest + 1 from rfl,
            List.range'_succ]
      · rw [show (Ev.issue t p :: rest).foldl step s = rest.foldl step (step s (Ev.issue t p)) from rfl,
            h2, hstep,
            show issueCount (Ev.issue t p :: rest) = issueCount rest + 1 from rfl]
        omega
    | resolve req =>
      have hstep : (step s (Ev.resolve req)).currentUpdateId = s.currentUpdateId :=
        updateMeshComplete_currentUpdateId s req
      obtain ⟨h1, h2⟩ := ih (step s (Ev.resolve req))
      constructor
      · rw [show tokensAux s (Ev.resolve req :: rest) =
              tokensAux (step s (Ev.resolve req)) rest from rfl,
            h1, hstep,
            show issueCount (Ev.resolve req :: rest) = issueCount rest from rfl]
      · rw [show (Ev.resolve req :: rest).foldl step s = rest.foldl step (step s (Ev.resolve req)) from rfl,
            h2, hstep,
            show issueCount (Ev.resolve req :: rest) = issueCount rest from rfl]

theorem getLastD_range_one (n : Nat) : (List.range' 1 n).getLastD 0 = n := by
  cases n with
  | zero => rfl
  | succ m =>
    rw [List.range'_concat, List.getLastD_concat]
    omega

/-! ### Claim theorems -/

/-- C9: every `updateMesh` call is assigned a token strictly greater than
every previously assigned token (the assigned-token sequence of any
schedule is strictly increasing), and after any schedule the coordinator's
stored `currentUpdateId` equals the token of the most recently issued
request (0 when none was issued). -/
theorem updateMesh_token_monotone (evs : List Ev) :
    (assignedTokens evs).Pairwise (· < ·) ∧
    (run evs).currentUpdateId = (assignedTokens evs).getLastD 0 := by
  obtain ⟨h1, h2⟩ := tokensAux_spec evs ThreeDScene.init
  have hz : ThreeDScene.init.currentUpdateId = 0 := rfl
  constructor
  · rw [assignedTokens, h1]
    exact List.pairwise_lt_range' _ _
  · rw [run, h2, assignedTokens, h1, hz]
    rw [show (0 : Nat) + 1 = 1 from rfl, getLastD_range_one]
    omega

/-- C7: when an `updateMesh` continuation finds its token stale
(different from `currentUpdateId`), the update is abandoned: both
resources it allocated — its geometry and its loaded texture — are
released, and it performs no scene mutation from that point on (the mesh
slot, the dispose log of replaced meshes, and the token are untouched). -/
theorem updateMesh_stale_abandons (s : ThreeDScene) (req : Pending)
    (hpend : req ∈ s.pending) (hstale : req.updateId ≠ s.currentUpdateId) :
    (updateMeshComplete s req).mesh = s.mesh ∧
    (updateMeshComplete s req).disposeLog = s.disposeLog ∧
    (updateMeshComplete s req).currentUpdateId = s.currentUpdateId ∧
    Res.geometry req.updateId ∈ (updateMeshComplete s req).released ∧
    Res.texture req.updateId ∈ (updateMeshComplete s req).released := by
  simp [updateMeshComplete, hstale]

/-- C7 witness: a concrete stale completion. -/
theorem updateMesh_stale_abandons_witness :
    (⟨1, 5, 6⟩ : Pending) ∈ (⟨2, none, [⟨1, 5, 6⟩], [], []⟩ : ThreeDScene).pending ∧
    (1 : Nat) ≠ 2 ∧
    ((updateMeshComplete ⟨2, none, [⟨1, 5, 6⟩], [], []⟩ ⟨1, 5, 6⟩).mesh =
        (⟨2, none, [⟨1, 5, 6⟩], [], []⟩ : ThreeDScene).mesh ∧
      (updateMeshComplete ⟨2, none, [⟨1, 5, 6⟩], [], []⟩ ⟨1, 5, 6⟩).disposeLog =
        (⟨2, none, [⟨1, 5, 6⟩], [], []⟩ : ThreeDScene).disposeLog ∧
      (updateMeshComplete ⟨2, none, [⟨1, 5, 6⟩], [], []⟩ ⟨1, 5, 6⟩).currentUpdateId =
        (⟨2, none, [⟨1, 5, 6⟩], [], []⟩ : ThreeDScene).currentUpdateId ∧
      Res.geometry 1 ∈ (updateMeshComplete ⟨2, none, [⟨1, 5, 6⟩], [], []⟩ ⟨1, 5, 6⟩).released ∧
      Res.texture 1 ∈ (updateMeshComplete ⟨2, none, [⟨1, 5, 6⟩], [], []⟩ ⟨1, 5, 6⟩).released) :=
  ⟨by decide, by decide,
    updateMesh_stale_abandons ⟨2, none, [⟨1, 5, 6⟩], [], []⟩ ⟨1, 5, 6⟩ (by decide) (by decide)⟩

/-- C1 counterexample: `updateMesh` mutates the scene before its
post-load token check.  In the reachable state holding the mesh built
from inputs (1,1), the synchronous prefix of a new `updateMesh` call
already removes that mesh and disposes its geometry/material — the old
mesh is absent while the new request is still in flight, before any load
completion or token comparison. -/
theorem updateMesh_disposes_before_token_check_cex :
    (run [Ev.issue 1 1, Ev.resolve ⟨1, 1, 1⟩]).mesh = some ⟨1, 1⟩ ∧
    (updateMeshBegin (run [Ev.issue 1 1, Ev.resolve ⟨1, 1, 1⟩]) 2 2).mesh = none ∧
    (updateMeshBegin (run [Ev.issue 1 1, Ev.resolve ⟨1, 1, 1⟩]) 2 2).disposeLog = [⟨1, 1⟩] ∧
    (updateMeshBegin (run [Ev.issue 1 1, Ev.resolve ⟨1, 1, 1⟩]) 2 2).pending = [⟨2, 2, 2⟩] := by
  decide

/-- C1 amended: `updateMesh` removes and disposes the previous mesh
synchronously at the start of the call, before the asynchronous texture
load and before any token check; only the construction and insertion of
the new mesh are guarded by the post-load token check.  Consequently the
old and new mesh are never both present (while a request is in flight the
scene holds no mesh at all), a stale completion performs no scene
mutation, and a latest-token completion installs the mesh built from its
own inputs. -/
theorem updateMesh_dispose_timing_amended (s : ThreeDScene) (t p : Nat)
    (req : Pending) (hstale : req.updateId ≠ s.currentUpdateId) :
    (updateMeshBegin s t p).mesh = none ∧
    (updateMeshBegin s t p).disposeLog = s.disposeLog ++ s.mesh.toList ∧
    (updateMeshComplete s req).mesh = s.mesh ∧
    (updateMeshComplete s req).disposeLog = s.disposeLog ∧
    ∀ req2 : Pending, req2.updateId = s.currentUpdateId →
      (updateMeshComplete s req2).mesh = some ⟨req2.depthTexture, req2.photo⟩ := by
  refine ⟨rfl, updateMeshBegin_disposeLog s t p, ?_, ?_, ?_⟩
  · simp [updateMeshComplete, hstale]
  · simp [updateMeshComplete, hstale]
  · intro req2 hfresh
    simp [updateMeshComplete, hfresh]

/-- C1 amended witness. -/
theorem updateMesh_dispose_timing_amended_witness :
    (1 : Nat) ≠ 7 ∧
    ((updateMeshBegin ⟨7, some ⟨3, 4⟩, [], [], []⟩ 8 9).mesh = none ∧
      (updateMeshBegin ⟨7, some ⟨3, 4⟩, [], [], []⟩ 8 9).disposeLog =
        (⟨7, some ⟨3, 4⟩, [], [], []⟩ : ThreeDScene).disposeLog ++
          (⟨7, some ⟨3, 4⟩, [], [], []⟩ : ThreeDScene).mesh.toList ∧
      (updateMeshComplete ⟨7, some ⟨3, 4⟩, [], [], []⟩ ⟨1, 5, 6⟩).mesh =
        (⟨7, some ⟨3, 4⟩, [], [], []⟩ : ThreeDScene).mesh ∧
      (updateMeshComplete ⟨7, some ⟨3, 4⟩, [], [], []⟩ ⟨1, 5, 6⟩).disposeLog =
        (⟨7, some ⟨3, 4⟩, [], [], []⟩ : ThreeDScene).disposeLog ∧
      ∀ req2 : Pending, req2.updateId = (⟨7, some ⟨3, 4⟩, [], [], []⟩ : ThreeDScene).currentUpdateId →
        (updateMeshComplete ⟨7, some ⟨3, 4⟩, [], [], []⟩ req2).mesh =
          some ⟨req2.depthTexture, req2.photo⟩) :=
  ⟨by decide, updateMesh_dispose_timing_amended ⟨7, some ⟨3, 4⟩, [], [], []⟩ 8 9 ⟨1, 5, 6⟩ (by decide)⟩

/-- C2: issuing request A and then request B before A's load resolves
leaves, after both continuations run in either completion order, exactly
one mesh in the scene — the one built from B's depth texture and photo —
and exactly one dispose cycle for the replaced mesh (the dispose log grows
by exactly the previously installed mesh, if any).  In general a
completion whose token is lower than the coordinator's current token is
discarded: it leaves the mesh and the dispose log untouched and only
releases its own resources (last-request-wins). -/
theorem updateMesh_last_request_wins (s : ThreeDScene) (tA pA tB pB : Nat)
    (req : Pending) (hlow : req.updateId < s.currentUpdateId) :
    ((updateMeshComplete
        (updateMeshComplete (updateMeshBegin (updateMeshBegin s tA pA) tB pB)
          ⟨s.currentUpdateId + 1, tA, pA⟩)
        ⟨s.currentUpdateId + 2, tB, pB⟩).mesh = some ⟨tB, pB⟩ ∧
      (updateMeshComplete
        (updateMeshComplete (updateMeshBegin (updateMeshBegin s tA pA) tB pB)
          ⟨s.currentUpdateId + 2, tB, pB⟩)
        ⟨s.currentUpdateId + 1, tA, pA⟩).mesh = some ⟨tB, pB⟩ ∧
      (updateMeshComplete
        (updateMeshComplete (updateMeshBegin (updateMeshBegin s tA pA) tB pB)
          ⟨s.currentUpdateId + 1, tA, pA⟩)
        ⟨s.currentUpdateId + 2, tB, pB⟩).disposeLog = s.disposeLog ++ s.mesh.toList ∧
      (updateMeshComplete
        (updateMeshComplete (updateMeshBegin (updateMeshBegin s tA pA) tB pB)
          ⟨s.currentUpdateId + 2, tB, pB⟩)
        ⟨s.currentUpdateId + 1, tA, pA⟩).disposeLog = s.disposeLog ++ s.mesh.toList) ∧
    (updateMeshComplete s req).mesh = s.mesh ∧
    (updateMeshComplete s req).disposeLog = s.disposeLog ∧
    (updateMeshComplete s req).released =
      s.released ++ [Res.geometry req.updateId, Res.texture req.updateId] := by
  have hne : req.updateId ≠ s.currentUpdateId := by omega
  have hcur2 : (updateMeshBegin (updateMeshBegin s tA pA) tB pB).currentUpdateId =
      s.currentUpdateId + 2 := rfl
  have hfreshB : ((⟨s.currentUpdateId + 2, tB, pB⟩ : Pending)).updateId =
      (updateMeshBegin (updateMeshBegin s tA pA) tB pB).currentUpdateId := by
    rw [hcur2]
  refine ⟨⟨?_, ?_, ?_, ?_⟩, updateMeshComplete_stale_mesh s req hne,
    updateMeshComplete_disposeLog s req, updateMeshComplete_released_stale s req hne⟩
  · -- A's continuation runs first (stale), then B's (fresh)
    apply updateMeshComplete_fresh_mesh
    rw [updateMeshComplete_currentUpdateId, hcur2]
  · -- B's continuation runs first (fresh), then A's (stale)
    rw [updateMeshComplete_stale_mesh, updateMeshComplete_fresh_mesh _ _ hfreshB]
    rw [updateMeshComplete_currentUpdateId, hcur2]
    show s.currentUpdateId + 1 ≠ s.currentUpdateId + 2
    omega
  · rw [updateMeshComplete_disposeLog, updateMeshComplete_disposeLog,
        updateMeshBegin_disposeLog, updateMeshBegin_mesh, updateMeshBegin_disposeLog]
    simp
  · rw [updateMeshComplete_disposeLog, updateMeshComplete_disposeLog,
        updateMeshBegin_disposeLog, updateMeshBegin_mesh, updateMeshBegin_disposeLog]
    simp

/-- C2 witness: a concrete A-then-B race over an installed mesh, plus a
concrete discarded lower-token completion. -/
theorem updateMesh_last_request_wins_witness :
    (1 : Nat) < 2 ∧
    (((updateMeshComplete
        (updateMeshComplete (updateMeshBegin (updateMeshBegin ⟨2, some ⟨9, 9⟩, [], [], []⟩ 11 12) 21 22)
          ⟨3, 11, 12⟩) ⟨4, 21, 22⟩).mesh = some ⟨21, 22⟩ ∧
      (updateMeshComplete
        (updateMeshComplete (updateMeshBegin (updateMeshBegin ⟨2, some ⟨9, 9⟩, [], [], []⟩ 11 12) 21 22)
          ⟨4, 21, 22⟩) ⟨3, 11, 12⟩).mesh = some ⟨21, 22⟩ ∧
      (updateMeshComplete
        (updateMeshComplete (updateMeshBegin (updateMeshBegin ⟨2, some ⟨9, 9⟩, [], [], []⟩ 11 12) 21 22)
          ⟨3, 11, 12⟩) ⟨4, 21, 22⟩).disposeLog =
        (⟨2, some ⟨9, 9⟩, [], [], []⟩ : ThreeDScene).disposeLog ++
          (⟨2, some ⟨9, 9⟩, [], [], []⟩ : ThreeDScene).mesh.toList ∧
      (updateMeshComplete
        (updateMeshComplete (updateMeshBegin (updateMeshBegin ⟨2, some ⟨9, 9⟩, [], [], []⟩ 11 12) 21 22)
          ⟨4, 21, 22⟩) ⟨3, 11, 12⟩).disposeLog =
        (⟨2, some ⟨9, 9⟩, [], [], []⟩ : ThreeDScene).disposeLog ++
          (⟨2, some ⟨9, 9⟩, [], [], []⟩ : ThreeDScene).mesh.toList) ∧
    (updateMeshComplete ⟨2, some ⟨9, 9⟩, [], [], []⟩ ⟨1, 3, 4⟩).mesh =
      (⟨2, some ⟨9, 9⟩, [], [], []⟩ : ThreeDScene).mesh ∧
    (updateMeshComplete ⟨2, some ⟨9, 9⟩, [], [], []⟩ ⟨1, 3, 4⟩).disposeLog =
      (⟨2, some ⟨9, 9⟩, [], [], []⟩ : ThreeDScene).disposeLog ∧
    (updateMeshComplete ⟨2, some ⟨9, 9⟩, [], [], []⟩ ⟨1, 3, 4⟩).released =
      (⟨2, some ⟨9, 9⟩, [], [], []⟩ : ThreeDScene).released ++
        [Res.geometry 1, Res.texture 1]) :=
  ⟨by decide, updateMesh_last_request_wins ⟨2, some ⟨9, 9⟩, [], [], []⟩ 11 12 21 22 ⟨1, 3, 4⟩ (by decide)⟩

/-- C3: `normalizeBrightness` rescales every pixel of a well-formed
grayscale buffer linearly: each output colour channel is the
`Uint8ClampedArray` store of `(v - min) / max(max - min, 1) * 255`, where
`v` is the pixel's value (all three of its colour channels, which are
equal) and min/max range over all pixels; alpha is carried over.  When all
pixels are equal (`max == min`), the divisor floors at 1, the numerator is
0, and every output colour channel is 0 — no division by zero occurs. -/
theorem normalizeBrightness_linear_rescale (img : ImageData)
    (hwf : WFData img.data) (hgray : GrayData img.data) (i : Nat) (p : Pixel)
    (hget : img.data.get? i = some p) :
    (normalizeBrightness img).data.get? i =
      some ⟨clampedRound ((p.r - redMinLoop img.data 255) * 255)
              (Nat.max (redMaxLoop img.data 0 - redMinLoop img.data 255) 1),
            clampedRound ((p.r - redMinLoop img.data 255) * 255)
              (Nat.max (redMaxLoop img.data 0 - redMinLoop img.data 255) 1),
            clampedRound ((p.r - redMinLoop img.data 255) * 255)
              (Nat.max (redMaxLoop img.data 0 - redMinLoop img.data 255) 1),
            p.a⟩ ∧
    (p.r = p.g ∧ p.g = p.b) ∧
    (ConstData img.data → (normalizeBrightness img).data.get? i = some ⟨0, 0, 0, p.a⟩) := by
  have hpin : p ∈ img.data := List.get?_mem hget
  have hmain : (normalizeBrightness img).data.get? i =
      some (normalizePixel (redMinLoop img.data 255)
        (if redMaxLoop img.data 0 - redMinLoop img.data 255 = 0 then 1
         else redMaxLoop img.data 0 - redMinLoop img.data 255) p) := by
    show (normalizeData img.data).get? i = _
    rw [normalizeData_eq, List.get?_map, hget]
    rfl
  refine ⟨?_, hgray p hpin, ?_⟩
  · rw [hmain, normalizePixel_eta, if_zero_then_one_eq_max]
  · intro hconst
    have hple : p.r ≤ 255 := (hwf p hpin).1
    have hmn : redMinLoop img.data 255 = p.r := by
      have h1 : redMinLoop img.data 255 ≤ p.r := redMinLoop_le_mem _ _ _ hpin
      have h2 : p.r ≤ redMinLoop img.data 255 :=
        le_redMinLoop _ _ _ hple fun q hq =>
          le_of_eq (congrArg Pixel.r (hconst q hq p hpin)).symm
      omega
    have hmx : redMaxLoop img.data 0 = p.r := by
      have h1 : p.r ≤ redMaxLoop img.data 0 := le_redMaxLoop_mem _ _ _ hpin
      have h2 : redMaxLoop img.data 0 ≤ p.r :=
        redMaxLoop_le _ _ _ (Nat.zero_le _) fun q hq =>
          le_of_eq (congrArg Pixel.r (hconst q hq p hpin))
      omega
    rw [hmain, normalizePixel_eta, hmn, hmx, Nat.sub_self, Nat.zero_mul,
        clampedRound_zero]

/-- C3 witness: a concrete constant grayscale buffer is rescaled to zero. -/
theorem normalizeBrightness_linear_rescale_witness :
    WFData (⟨1, 1, [⟨5, 5, 5, 9⟩]⟩ : ImageData).data ∧
    GrayData (⟨1, 1, [⟨5, 5, 5, 9⟩]⟩ : ImageData).data ∧
    (⟨1, 1, [⟨5, 5, 5, 9⟩]⟩ : ImageData).data.get? 0 = some ⟨5, 5, 5, 9⟩ ∧
    ((normalizeBrightness ⟨1, 1, [⟨5, 5, 5, 9⟩]⟩).data.get? 0 =
      some ⟨clampedRound (((⟨5, 5, 5, 9⟩ : Pixel).r -
                redMinLoop (⟨1, 1, [⟨5, 5, 5, 9⟩]⟩ : ImageData).data 255) * 255)
              (Nat.max (redMaxLoop (⟨1, 1, [⟨5, 5, 5, 9⟩]⟩ : ImageData).data 0 -
                redMinLoop (⟨1, 1, [⟨5, 5, 5, 9⟩]⟩ : ImageData).data 255) 1),
            clampedRound (((⟨5, 5, 5, 9⟩ : Pixel).r -
                redMinLoop (⟨1, 1, [⟨5, 5, 5, 9⟩]⟩ : ImageData).data 255) * 255)
              (Nat.max (redMaxLoop (⟨1, 1, [⟨5, 5, 5, 9⟩]⟩ : ImageData).data 0 -
                redMinLoop (⟨1, 1, [⟨5, 5, 5, 9⟩]⟩ : ImageData).data 255) 1),
            clampedRound (((⟨5, 5, 5, 9⟩ : Pixel).r -
                redMinLoop (⟨1, 1, [⟨5, 5, 5, 9⟩]⟩ : ImageData).data 255) * 255)
              (Nat.max (redMaxLoop (⟨1, 1, [⟨5, 5, 5, 9⟩]⟩ : ImageData).data 0 -
                redMinLoop (⟨1, 1, [⟨5, 5, 5, 9⟩]⟩ : ImageData).data 255) 1),
            (⟨5, 5, 5, 9⟩ : Pixel).a⟩ ∧
    ((⟨5, 5, 5, 9⟩ : Pixel).r = (⟨5, 5, 5, 9⟩ : Pixel).g ∧
      (⟨5, 5, 5, 9⟩ : Pixel).g = (⟨5, 5, 5, 9⟩ : Pixel).b) ∧
    (ConstData (⟨1, 1, [⟨5, 5, 5, 9⟩]⟩ : ImageData).data →
      (normalizeBrightness ⟨1, 1, [⟨5, 5, 5, 9⟩]⟩).data.get? 0 =
        some ⟨0, 0, 0, (⟨5, 5, 5, 9⟩ : Pixel).a⟩)) :=
  ⟨by decide, by decide, by decide,
    normalizeBrightness_linear_rescale ⟨1, 1, [⟨5, 5, 5, 9⟩]⟩
      (by decide) (by decide) 0 ⟨5, 5, 5, 9⟩ (by decide)⟩

/-- C4: `normalizeBrightness` is idempotent on well-formed buffers — the
first pass already expands the red range to exactly 0..255 (or maps a
constant buffer to all zeros), so a second pass rewrites every channel
with its own value. -/
theorem normalizeBrightness_idempotent (img : ImageData) (hwf : WFData img.data) :
    normalizeBrightness (normalizeBrightness img) = normalizeBrightness img := by
  have h := normalizeData_idem img.data hwf
  show ({ img with data := normalizeData (normalizeData img.data) } : ImageData) =
    { img with data := normalizeData img.data }
  rw [h]

/-- C4 witness: a concrete non-constant buffer. -/
theorem normalizeBrightness_idempotent_witness :
    WFData (⟨2, 1, [⟨10, 10, 10, 1⟩, ⟨13, 13, 13, 2⟩]⟩ : ImageData).data ∧
    normalizeBrightness (normalizeBrightness ⟨2, 1, [⟨10, 10, 10, 1⟩, ⟨13, 13, 13, 2⟩]⟩) =
      normalizeBrightness ⟨2, 1, [⟨10, 10, 10, 1⟩, ⟨13, 13, 13, 2⟩]⟩ :=
  ⟨by decide,
    normalizeBrightness_idempotent ⟨2, 1, [⟨10, 10, 10, 1⟩, ⟨13, 13, 13, 2⟩]⟩ (by decide)⟩

/-- C5: the depth-texture mask sets each pixel's alpha to 0 exactly when
its RGB sum is strictly below `toneRange * 3` and to 255 otherwise,
leaving the colour channels unchanged; in particular a pixel whose RGB sum
is exactly `toneRange * 3` gets alpha 255 (the boundary is inclusive on
the foreground side). -/
theorem depthTexture_mask_threshold (toneRange : Nat) (d : List Pixel) (i : Nat)
    (p : Pixel) (hget : d.get? i = some p) :
    (createDepthTextureData toneRange d).get? i =
      some ⟨p.r, p.g, p.b, if p.r + p.g + p.b < toneRange * 3 then 0 else 255⟩ ∧
    (p.r + p.g + p.b = toneRange * 3 →
      (createDepthTextureData toneRange d).get? i = some ⟨p.r, p.g, p.b, 255⟩) := by
  have hmain : (createDepthTextureData toneRange d).get? i =
      some (maskPixel toneRange p) := by
    rw [createDepthTextureData, List.get?_map, hget]
    rfl
  constructor
  · rw [hmain]
    rfl
  · intro heq
    rw [hmain]
    have hnlt : ¬ p.r + p.g + p.b < toneRange * 3 := by omega
    show some ({ p with a := if p.r + p.g + p.b < toneRange * 3 then 0 else 255 }) = _
    rw [if_neg hnlt]

/-- C5 witness: a pixel exactly at the threshold keeps alpha 255. -/
theorem depthTexture_mask_threshold_witness :
    ([⟨10, 10, 10, 7⟩] : List Pixel).get? 0 = some ⟨10, 10, 10, 7⟩ ∧
    ((createDepthTextureData 10 [⟨10, 10, 10, 7⟩]).get? 0 =
      some ⟨10, 10, 10, if 10 + 10 + 10 < 10 * 3 then 0 else 255⟩ ∧
    (10 + 10 + 10 = 10 * 3 →
      (createDepthTextureData 10 [⟨10, 10, 10, 7⟩]).get? 0 = some ⟨10, 10, 10, 255⟩)) :=
  ⟨by decide, depthTexture_mask_threshold 10 [⟨10, 10, 10, 7⟩] 0 ⟨10, 10, 10, 7⟩ (by decide)⟩

/-- C6: `invertCanvasImage` is an involution on the colour channels of a
well-formed buffer — applying it twice restores every pixel — and each
application leaves every pixel's alpha unchanged. -/
theorem invertCanvasImage_involution (d : List Pixel) (hwf : WFData d) :
    invertCanvasImageData (invertCanvasImageData d) = d ∧
    ∀ i p, d.get? i = some p →
      ((invertCanvasImageData d).get? i).map Pixel.a = some p.a := by
  constructor
  · rw [invertCanvasImageData, invertCanvasImageData, List.map_map]
    apply map_eq_self_of
    intro q hq
    obtain ⟨hr, hg, hb, _⟩ := hwf q hq
    obtain ⟨r, g, b, a⟩ := q
    simp only [Function.comp, invertPixel]
    rw [Nat.sub_sub_self hr, Nat.sub_sub_self hg, Nat.sub_sub_self hb]
  · intro i p hget
    rw [invertCanvasImageData, List.get?_map, hget]
    rfl

/-- C6 witness: a concrete buffer round-trips. -/
theorem invertCanvasImage_involution_witness :
    WFData [⟨3, 200, 255, 17⟩] ∧
    (invertCanvasImageData (invertCanvasImageData [⟨3, 200, 255, 17⟩]) =
        [⟨3, 200, 255, 17⟩] ∧
      ∀ i p, ([⟨3, 200, 255, 17⟩] : List Pixel).get? i = some p →
        ((invertCanvasImageData [⟨3, 200, 255, 17⟩]).get? i).map Pixel.a = some p.a) :=
  ⟨by decide, invertCanvasImage_involution [⟨3, 200, 255, 17⟩] (by decide)⟩

/-- C10: `normalizeBrightness` preserves every pixel's alpha, writes the
same value into all three colour channels, and that value is the clamped
store of `(data[i] - min) / range * 255` computed from the red channel
only (min, max and the numerator all read `.r`): green and blue of a
non-grayscale pixel are simply overwritten with the normalized red. -/
theorem normalizeBrightness_red_only (img : ImageData) (i : Nat) (p : Pixel)
    (hget : img.data.get? i = some p) :
    (normalizeBrightness img).data.get? i =
      some ⟨clampedRound ((p.r - redMinLoop img.data 255) * 255)
              (if redMaxLoop img.data 0 - redMinLoop img.data 255 = 0 then 1
               else redMaxLoop img.data 0 - redMinLoop img.data 255),
            clampedRound ((p.r - redMinLoop img.data 255) * 255)
              (if redMaxLoop img.data 0 - redMinLoop img.data 255 = 0 then 1
               else redMaxLoop img.data 0 - redMinLoop img.data 255),
            clampedRound ((p.r - redMinLoop img.data 255) * 255)
              (if redMaxLoop img.data 0 - redMinLoop img.data 255 = 0 then 1
               else redMaxLoop img.data 0 - redMinLoop img.data 255),
            p.a⟩ := by
  show (normalizeData img.data).get? i = _
  rw [normalizeData_eq, List.get?_map, hget]
  rfl

/-- C10 witness: a concrete non-grayscale pixel. -/
theorem normalizeBrightness_red_only_witness :
    (⟨1, 1, [⟨99, 1, 2, 3⟩]⟩ : ImageData).data.get? 0 = some ⟨99, 1, 2, 3⟩ ∧
    (normalizeBrightness ⟨1, 1, [⟨99, 1, 2, 3⟩]⟩).data.get? 0 =
      some ⟨clampedRound (((⟨99, 1, 2, 3⟩ : Pixel).r -
                redMinLoop (⟨1, 1, [⟨99, 1, 2, 3⟩]⟩ : ImageData).data 255) * 255)
              (if redMaxLoop (⟨1, 1, [⟨99, 1, 2, 3⟩]⟩ : ImageData).data 0 -
                  redMinLoop (⟨1, 1, [⟨99, 1, 2, 3⟩]⟩ : ImageData).data 255 = 0 then 1
               else redMaxLoop (⟨1, 1, [⟨99, 1, 2, 3⟩]⟩ : ImageData).data 0 -
                  redMinLoop (⟨1, 1, [⟨99, 1, 2, 3⟩]⟩ : ImageData).data 255),
            clampedRound (((⟨99, 1, 2, 3⟩ : Pixel).r -
                redMinLoop (⟨1, 1, [⟨99, 1, 2, 3⟩]⟩ : ImageData).data 255) * 255)
              (if redMaxLoop (⟨1, 1, [⟨99, 1, 2, 3⟩]⟩ : ImageData).data 0 -
                  redMinLoop (⟨1, 1, [⟨99, 1, 2, 3⟩]⟩ : ImageData).data 255 = 0 then 1
               else redMaxLoop (⟨1, 1, [⟨99, 1, 2, 3⟩]⟩ : ImageData).data 0 -
                  redMinLoop (⟨1, 1, [⟨99, 1, 2, 3⟩]⟩ : ImageData).data 255),
            clampedRound (((⟨99, 1, 2, 3⟩ : Pixel).r -
                redMinLoop (⟨1, 1, [⟨99, 1, 2, 3⟩]⟩ : ImageData).data 255) * 255)
              (if redMaxLoop (⟨1, 1, [⟨99, 1, 2, 3⟩]⟩ : ImageData).data 0 -
                  redMinLoop (⟨1, 1, [⟨99, 1, 2, 3⟩]⟩ : ImageData).data 255 = 0 then 1
               else redMaxLoop (⟨1, 1, [⟨99, 1, 2, 3⟩]⟩ : ImageData).data 0 -
                  redMinLoop (⟨1, 1, [⟨99, 1, 2, 3⟩]⟩ : ImageData).data 255),
            (⟨99, 1, 2, 3⟩ : Pixel).a⟩ :=
  ⟨by decide, normalizeBrightness_red_only ⟨1, 1, [⟨99, 1, 2, 3⟩]⟩ 0 ⟨99, 1, 2, 3⟩ (by decide)⟩

/-- C8 counterexample: the source defines no `DimensionMismatch` or
`DegeneratePolygon` failures.  `normalizeBrightness`, handed a buffer
whose data length (1 pixel) does not match its declared 2×2 dimensions,
returns an ordinary processed buffer instead of failing (its result never
carries an error); the spec's checked contract would demand
`DimensionMismatch` there.  `createOuterRingPath`, handed a 2-vertex
keypoint list, fails with a generic undefined-index lookup (`none`), not
with the `DegeneratePolygon` the spec's contract would demand. -/
theorem processor_error_taxonomy_cex :
    (⟨2, 2, [⟨10, 20, 30, 40⟩]⟩ : ImageData).data.length ≠
      (⟨2, 2, [⟨10, 20, 30, 40⟩]⟩ : ImageData).width *
        (⟨2, 2, [⟨10, 20, 30, 40⟩]⟩ : ImageData).height ∧
    normalizeBrightness ⟨2, 2, [⟨10, 20, 30, 40⟩]⟩ = ⟨2, 2, [⟨0, 0, 0, 40⟩]⟩ ∧
    specNormalizeChecked ⟨2, 2, [⟨10, 20, 30, 40⟩]⟩ =
      Except.error ProcError.DimensionMismatch ∧
    createOuterRingPath [⟨0, 0⟩, ⟨1, 1⟩] = none ∧
    specClipPolygonChecked [⟨0, 0⟩, ⟨1, 1⟩] =
      Except.error ProcError.DegeneratePolygon := by
  exact ⟨by decide, by decide, rfl, rfl, rfl⟩

/-- C8 amended: the source performs no dimension or vertex-count
validation and produces no error value for either condition — the
processor operations read only the data array, so the result of
`normalizeBrightness` is independent of the declared width/height, and
`createOuterRingPath` on a polygon of fewer than 3 vertices merely fails
its very first keypoint lookup (the outer-ring indices start at 10),
yielding a generic `none` rather than a `DegeneratePolygon` error. -/
theorem processor_no_validation_amended (w h w2 h2 : Nat) (d : List Pixel)
    (kps : List Point) (hshort : kps.length < 3) :
    (normalizeBrightness ⟨w, h, d⟩).data = (normalizeBrightness ⟨w2, h2, d⟩).data ∧
    createOuterRingPath kps = none := by
  constructor
  · rfl
  · have h10 : kps.get? 10 = none := List.get?_eq_none.2 (by omega)
    simp only [createOuterRingPath]
    rw [show OUTER_RING_INDICES.headI = 10 from rfl, h10]
    rfl

/-- C8 amended witness. -/
theorem processor_no_validation_amended_witness :
    ([⟨0, 0⟩] : List Point).length < 3 ∧
    ((normalizeBrightness ⟨1, 2, [⟨1, 2, 3, 4⟩]⟩).data =
        (normalizeBrightness ⟨3, 4, [⟨1, 2, 3, 4⟩]⟩).data ∧
      createOuterRingPath [⟨0, 0⟩] = none) :=
  ⟨by decide, processor_no_validation_amended 1 2 3 4 [⟨1, 2, 3, 4⟩] [⟨0, 0⟩] (by decide)⟩

end DepthMap
